import Mathlib

/-!
Verification development for the Cardano book-image fetcher.

Shallow embedding of the metadata fetch / classify / download pipeline:
  - `src/utils/util.rs`       : `ipfs_to_http` (URI resolver)
  - `src/services/blockfrost.rs` : `fetch_assets_metadata` (orchestrator loop)
  - `src/services/download.rs`   : `download_and_save` (download dispatcher)

Rust strings are embedded as `List Char`; machine behaviour that the claims
depend on (Vec `pop`/`split_off`, saturating subtraction, `serde_json::Value`
field probing, panics from out-of-bounds indexing) is modelled explicitly.
-/

/-- A Rust `String` / `&str`, embedded as its character list. -/
abbrev RStr := List Char

/-- Rust `str::starts_with`: does `s` begin with the pattern `p`? -/
def strStartsWith : RStr → RStr → Bool
  | _, [] => true
  | [], _ :: _ => false
  | c :: cs, p :: ps => c = p && strStartsWith cs ps

/-- `IPFS_GATEWAY` from `src/utils/util.rs`. -/
def IPFS_GATEWAY : RStr := "https://ipfs.io/ipfs/".data

/-- `ipfs_to_http` from `src/utils/util.rs`: rewrite `ipfs://CID` to the
gateway URL, error on any other shape.  `&ipfs_hash[7..]` is the byte suffix
after the 7-byte ASCII marker, i.e. `drop 7`. -/
def ipfs_to_http (ipfs_hash : RStr) : Except String RStr :=
  if strStartsWith ipfs_hash "ipfs://".data then
    Except.ok (IPFS_GATEWAY ++ ipfs_hash.drop 7)
  else
    Except.error "Invalid IPFS hash, must start with 'ipfs://' prefix"

/-- The subset of `serde_json::Value` the classifier probes: strings, arrays,
objects, and everything else collapsed to `other` (numbers, booleans, null —
none of the classifier's patterns match them). -/
inductive Json where
  | str (s : RStr)
  | arr (xs : List Json)
  | obj (fields : List (String × Json))
  | other

/-- `serde_json::Value::get(key)`: field lookup on objects, `None` otherwise. -/
def Json.get (j : Json) (key : String) : Option Json :=
  match j with
  | .obj fields => fields.lookup key
  | _ => none

/-- The part of blockfrost's `AssetDetails` the orchestrator reads:
the asset id and the optional on-chain metadata document. -/
structure AssetDetails where
  asset : RStr
  onchain_metadata : Option Json

/-- `Asset` from `src/models/asset.rs`. -/
structure Asset where
  asset : RStr
  src : RStr
deriving DecidableEq

/-- A download job as assembled in the loop body of `fetch_assets_metadata`
(`blockfrost.rs` lines 107–138): resolved URL plus target filename. -/
structure DownloadJob where
  url : RStr
  filename : RStr
deriving DecidableEq

/-- Extension choice of `blockfrost.rs` lines 107–115: `extension` starts as
`"png"` and is overwritten with `"png"` when `mediaType` is `"image/png"`;
every other shape leaves the default. -/
def chooseExtension (file0 : Json) : RStr :=
  match file0.get "mediaType" with
  | some (Json.str media_type) =>
      if media_type = "image/png".data then "png".data else "png".data
  | _ => "png".data

/-- Result of running the loop body (`blockfrost.rs` lines 90–143) on one
received `FetchOutcome`:
  - `valid`  : classifier accepted and `Url::parse` succeeded — the asset was
    pushed onto `asset_metadata` and a download task was spawned;
  - `invalid`: fetch failure, or any classifier rejection (`is_valid` stays
    `false`);
  - `panic`  : `files[0]` on an empty `files` array — `Vec` indexing panics;
  - `abort`  : classifier accepted (asset already pushed) but `Url::parse`
    failed, so the `?` on line 129 returns `Err` from the whole function. -/
inductive StepOutcome where
  | valid (a : Asset) (job : DownloadJob)
  | invalid
  | panic
  | abort
deriving DecidableEq

/-- The loop body's classification of one `FetchOutcome`
(`blockfrost.rs` lines 91–143).  `result = none` models a failed fetch
(`Err` in the channel); `parseOk` abstracts `reqwest::Url::parse` success. -/
def processResult (parseOk : RStr → Bool) (result : Option AssetDetails) :
    StepOutcome :=
  match result with
  | none => .invalid
  | some metadata =>
    match metadata.onchain_metadata with
    | none => .invalid
    | some onchain_metadata =>
      match onchain_metadata.get "files" with
      | some (Json.arr files) =>
        match files with
        | [] => .panic
        | file0 :: _ =>
          match file0.get "src" with
          | some (Json.str src) =>
            match ipfs_to_http src with
            | .error _ => .invalid
            | .ok url =>
              let extension := chooseExtension file0
              let filename := metadata.asset ++ ('.' :: extension)
              if parseOk url then
                .valid ⟨metadata.asset, src⟩ ⟨url, filename⟩
              else
                .abort
          | _ => .invalid
      | _ => .invalid

/-- Orchestrator loop state (`fetch_assets_metadata`, `blockfrost.rs`):
  - `inflight` : ids of spawned fetch tasks whose outcome has not yet been
    received, in arrival order (with `NUM_CONCURRENT_FETCHES = 1` there is at
    most one, so arrival order is determined);
  - `pending`  : the `assets` Vec after `split_off` — `assets.pop()` pops from
    its END;
  - `remaining`: the `remaining_tasks` counter;
  - `results`  : the `asset_metadata` Vec (the ResultSet);
  - `jobs`     : the download jobs spawned so far (`download_tasks`);
  - `spawned`  : ghost field — every id handed to a fetch task so far. -/
structure LoopSt where
  inflight : List RStr
  pending : List RStr
  remaining : Nat
  results : List Asset
  jobs : List DownloadJob
  spawned : List RStr
deriving DecidableEq

/-- Outcome of a whole run of the receive loop:
  - `ok`      : the loop broke out via `remaining_tasks == 0`; carries the
    ResultSet, the spawned download jobs, and the ghost list of fetched ids;
  - `err`     : `Url::parse` failed and `?` propagated an `Err` out of
    `fetch_assets_metadata` (results discarded);
  - `panicked`: `files[0]` indexed an empty array;
  - `hang`    : `rx.recv().await` blocks forever — no fetch task is in flight,
    and the channel never closes because the orchestrator's own `tx` clone is
    never dropped. -/
inductive RunResult where
  | ok (results : List Asset) (jobs : List DownloadJob) (spawned : List RStr)
  | err (spawned : List RStr)
  | panicked (spawned : List RStr)
  | hang (spawned : List RStr)
deriving DecidableEq

/-- Ghost projection: the ids handed to fetch tasks during the run. -/
def RunResult.spawnedIds : RunResult → List RStr
  | .ok _ _ s => s
  | .err s => s
  | .panicked s => s
  | .hang s => s

/-- One iteration of the receive loop either continues with a new state or
finishes with a `RunResult`. -/
inductive StepRes where
  | cont (st : LoopSt)
  | done (r : RunResult)
deriving DecidableEq

/-- One iteration of the receive loop (`blockfrost.rs` lines 89–159).

If no task is in flight, `rx.recv().await` never returns (the function's own
sender keeps the channel open), modelled as `done (hang _)`.  Otherwise the
head outcome is received, `remaining_tasks` is decremented with
`saturating_sub` (Nat subtraction), the body classifies the outcome, an
invalid outcome pops a replacement id from the END of `pending` (Vec `pop`),
and the loop breaks when `remaining_tasks == 0`. -/
def loopStep (oracle : RStr → Option AssetDetails) (parseOk : RStr → Bool)
    (st : LoopSt) : StepRes :=
  match st.inflight with
  | [] => .done (.hang st.spawned)
  | a :: rest =>
    let remaining := st.remaining - 1
    match processResult parseOk (oracle a) with
    | .panic => .done (.panicked st.spawned)
    | .abort => .done (.err st.spawned)
    | .valid asset job =>
      let st' : LoopSt :=
        ⟨rest, st.pending, remaining,
         st.results ++ [asset], st.jobs ++ [job], st.spawned⟩
      if remaining = 0 then .done (.ok st'.results st'.jobs st'.spawned)
      else .cont st'
    | .invalid =>
      match st.pending.getLast? with
      | some popped =>
        let st' : LoopSt :=
          ⟨rest ++ [popped], st.pending.dropLast, remaining + 1,
           st.results, st.jobs, st.spawned ++ [popped]⟩
        if remaining + 1 = 0 then .done (.ok st'.results st'.jobs st'.spawned)
        else .cont st'
      | none =>
        let st' : LoopSt :=
          ⟨rest, st.pending, remaining, st.results, st.jobs, st.spawned⟩
        if remaining = 0 then .done (.ok st'.results st'.jobs st'.spawned)
        else .cont st'

/-- The receive loop.  Each iteration consumes the head of `inflight` and
moves at most one id from `pending` to `inflight`, so
`inflight.length + pending.length` falls by exactly one per iteration; that
measure is supplied as structural fuel by `runLoop` below, making the fuel
bound exact (the `0`-fuel case coincides with the empty-`inflight` hang). -/
def runLoopAux (oracle : RStr → Option AssetDetails) (parseOk : RStr → Bool) :
    Nat → LoopSt → RunResult
  | 0, st => .hang st.spawned
  | fuel + 1, st =>
    match loopStep oracle parseOk st with
    | .done r => r
    | .cont st' => runLoopAux oracle parseOk fuel st'

/-- The receive loop run to completion from state `st`. -/
def runLoop (oracle : RStr → Option AssetDetails) (parseOk : RStr → Bool)
    (st : LoopSt) : RunResult :=
  runLoopAux oracle parseOk (st.inflight.length + st.pending.length) st

/-- `NUM_CONCURRENT_FETCHES` from `blockfrost.rs` line 21. -/
def NUM_CONCURRENT_FETCHES : Nat := 1

/-- `fetch_assets_metadata` (`blockfrost.rs` lines 53–165), with the network
abstracted: `oracle a` is the `FetchOutcome` the fetch task for asset `a`
posts on the channel (`none` = fetch failure) and `parseOk` abstracts
`reqwest::Url::parse` success.

The asset list is reversed in place; `split_off(len.saturating_sub(F))`
removes the LAST `F` elements of the reversed Vec as `initial_assets`
(spawned immediately), the rest stays as the pending Vec popped from its
end.  `remaining_tasks` starts at `initial_assets.len()`. -/
def fetch_assets_metadata (oracle : RStr → Option AssetDetails)
    (parseOk : RStr → Bool) (assets : List RStr) : RunResult :=
  let reved := assets.reverse
  let splitIdx := reved.length - NUM_CONCURRENT_FETCHES
  let initial_assets := reved.drop splitIdx
  let remainingVec := reved.take splitIdx
  runLoop oracle parseOk
    ⟨initial_assets, remainingVec, initial_assets.length, [], [], initial_assets⟩

deriving instance DecidableEq for Except

/-- Result of the whole pipeline, `join_all` included (`blockfrost.rs`
lines 162–164 plus the download tasks' bodies):
  - `out`          : what the caller gets (`Err` when `Url::parse` aborted the
    run, and no value at all — modelled as `Except.error` — when the loop
    hangs or panics);
  - `downloadsRun` : each spawned download job paired with whether its
    download succeeded; a failed download is only logged (`eprintln!`), the
    task still resolves, so every job appears here;
  - `joinRan`      : whether control reached `future::join_all` — `false` when
    the `?` on line 129 returned early. -/
structure PipelineResult where
  out : Except Unit (List Asset)
  downloadsRun : List (DownloadJob × Bool)
  joinRan : Bool
deriving DecidableEq

/-- The pipeline: run the receive loop, then (on normal exit) await every
download task — `dlOk job` tells whether that download succeeds; failures are
logged and swallowed inside the task — and return the ResultSet. -/
def runPipeline (oracle : RStr → Option AssetDetails) (parseOk : RStr → Bool)
    (dlOk : DownloadJob → Bool) (assets : List RStr) : PipelineResult :=
  match fetch_assets_metadata oracle parseOk assets with
  | .ok results jobs _ =>
      ⟨Except.ok results, jobs.map (fun j => (j, dlOk j)), true⟩
  | .err _ => ⟨Except.error (), [], false⟩
  | .panicked _ => ⟨Except.error (), [], false⟩
  | .hang _ => ⟨Except.error (), [], false⟩

/-! ## Download dispatcher (`src/services/download.rs`) -/

/-- One chunk of the streamed response body, as a byte list. -/
abbrev Chunk := List Nat

/-- The filesystem operations `download_and_save` performs on the non-skip
path (`download.rs` lines 40–82). -/
inductive FsOp where
  | createDir (d : String)
  | createTemp (p : String)
  | writeChunk (p : String) (c : Chunk)
  | renameFile (src dst : String)
deriving DecidableEq

/-- Filesystem state: the set of existing directories and a map from file
path to byte contents. -/
structure FSState where
  dirs : List String
  files : List (String × Chunk)
deriving DecidableEq

/-- Contents of the file at path `p`, if present. -/
def lookupFile : List (String × Chunk) → String → Option Chunk
  | [], _ => none
  | (k, v) :: rest, p => if k = p then some v else lookupFile rest p

/-- Remove the file at `p`. -/
def removeFile : List (String × Chunk) → String → List (String × Chunk)
  | [], _ => []
  | (k, v) :: rest, p =>
      if k = p then removeFile rest p else (k, v) :: removeFile rest p

/-- Set (create or truncate-and-overwrite) the file at `p` to contents `c`. -/
def setFile (files : List (String × Chunk)) (p : String) (c : Chunk) :
    List (String × Chunk) :=
  (p, c) :: removeFile files p

/-- `Path::exists` on a file path. -/
def FSState.fileExists (fs : FSState) (p : String) : Bool :=
  (lookupFile fs.files p).isSome

/-- Apply one filesystem operation. -/
def applyOp (fs : FSState) (op : FsOp) : FSState :=
  match op with
  | .createDir d => ⟨d :: fs.dirs, fs.files⟩
  | .createTemp p => ⟨fs.dirs, setFile fs.files p []⟩
  | .writeChunk p c =>
      ⟨fs.dirs, setFile fs.files p (((lookupFile fs.files p).getD []) ++ c)⟩
  | .renameFile src dst =>
      match lookupFile fs.files src with
      | some v => ⟨fs.dirs, setFile (removeFile fs.files src) dst v⟩
      | none => fs

/-- The operation trace of the non-skip path of `download_and_save`
(`download.rs` lines 42–81): create a fresh temporary file in the output
directory, write the body chunk by chunk into it, and only then rename it to
the final filename. -/
def downloadOps (output_dir tmp_name filename : String) (body : List Chunk) :
    List FsOp :=
  let tmpPath := output_dir ++ "/" ++ tmp_name
  let outPath := output_dir ++ "/" ++ filename
  FsOp.createTemp tmpPath ::
    (body.map (FsOp.writeChunk tmpPath) ++ [FsOp.renameFile tmpPath outPath])

/-- Result of one `download_and_save` call: outcome, final filesystem, bytes
transferred over HTTP, and whether an HTTP request was issued at all. -/
structure DlResult where
  out : Except String Unit
  fs : FSState
  bytesTransferred : Nat
  httpCalled : Bool
deriving DecidableEq

/-- `download_and_save` (`download.rs` lines 26–85) with the network
abstracted: `body` is the chunk stream of the HTTP response, `tmp_name` the
fresh name `NamedTempFile::new_in` picks inside the output directory.

In source order: build `output_path`; create the output directory if absent;
if `output_path` already exists, return `Ok` at once (no fetch, no write);
otherwise replay the operation trace `downloadOps`. -/
def download_and_save (output_dir tmp_name : String) (fs : FSState)
    (filename : String) (body : List Chunk) : DlResult :=
  let output_path := output_dir ++ "/" ++ filename
  let fs1 := if output_dir ∈ fs.dirs then fs
             else applyOp fs (.createDir output_dir)
  if fs1.fileExists output_path then
    ⟨Except.ok (), fs1, 0, false⟩
  else
    ⟨Except.ok (),
     (downloadOps output_dir tmp_name filename body).foldl applyOp fs1,
     (body.map List.length).sum, true⟩

/-! ## Concurrency model (`blockfrost.rs` lines 62–162)

Small-step transition system over the pipeline's shared resources, covering
every interleaving of the spawned tasks for arbitrary fetch window `F`
(`NUM_CONCURRENT_FETCHES`; 1 in the source) and download permit count `D`
(`Semaphore::new(3)` in the source). -/

/-- Abstract fetch outcome as far as scheduling is concerned. -/
inductive Outc where
  | valid
  | invalid
deriving DecidableEq

/-- Scheduling state of the pipeline:
  - `pendingCount` : ids still on the pending stack;
  - `fetching`     : spawned fetch tasks whose outcome is not yet on the
    channel (in-flight metadata fetches);
  - `channel`      : outcomes sent but not yet received by the orchestrator;
  - `holding`      : the outcome the orchestrator has received and is
    processing, if any;
  - `freePermits`  : download-semaphore permits currently free;
  - `downloading`  : download tasks holding a permit (in-flight downloads). -/
structure CState where
  pendingCount : Nat
  fetching : Nat
  channel : List Outc
  holding : Option Outc
  freePermits : Nat
  downloading : Nat
deriving DecidableEq

/-- Initial state for input size `n`: `min F n` fetch tasks are spawned for
`initial_assets`, the remaining `n - min F n` ids stay pending, all `D`
permits are free, nothing downloads. -/
def initCState (F D n : Nat) : CState :=
  ⟨n - min F n, min F n, [], none, D, 0⟩

/-- One scheduler step of the pipeline:
  - `fetchDone`      : an in-flight fetch task finishes and posts its outcome
    on the channel (`blockfrost.rs` lines 80–86; channel capacity only blocks
    senders, so leaving it unbounded covers strictly more interleavings);
  - `recv`           : the orchestrator receives the next outcome and starts
    processing it (line 89);
  - `procValid`      : a valid outcome acquires a free download permit and
    spawns a download task (lines 101–138) — enabled only when a permit is
    free, otherwise the orchestrator suspends;
  - `procInvalidPop` : an invalid outcome pops a pending id and spawns a
    replacement fetch task (lines 145–155);
  - `procInvalidNone`: an invalid outcome with an empty stack just finishes;
  - `downloadDone`   : a download task finishes and releases its permit
    (lines 130–136). -/
inductive CStep : CState → CState → Prop where
  | fetchDone (s : CState) (o : Outc) (h : 1 ≤ s.fetching) :
      CStep s { s with fetching := s.fetching - 1, channel := s.channel ++ [o] }
  | recv (s : CState) (o : Outc) (ch : List Outc)
      (hh : s.holding = none) (hc : s.channel = o :: ch) :
      CStep s { s with channel := ch, holding := some o }
  | procValid (s : CState) (hh : s.holding = some .valid)
      (hp : 1 ≤ s.freePermits) :
      CStep s { s with holding := none, freePermits := s.freePermits - 1,
                       downloading := s.downloading + 1 }
  | procInvalidPop (s : CState) (hh : s.holding = some .invalid)
      (hp : 1 ≤ s.pendingCount) :
      CStep s { s with holding := none, pendingCount := s.pendingCount - 1,
                       fetching := s.fetching + 1 }
  | procInvalidNone (s : CState) (hh : s.holding = some .invalid)
      (hp : s.pendingCount = 0) :
      CStep s { s with holding := none }
  | downloadDone (s : CState) (h : 1 ≤ s.downloading) :
      CStep s { s with downloading := s.downloading - 1,
                       freePermits := s.freePermits + 1 }

/-- Reachability from a given initial state under `CStep`. -/
inductive CReach (init : CState) : CState → Prop where
  | refl : CReach init init
  | tail {s t : CState} : CReach init s → CStep s t → CReach init t

/-- 1 if the orchestrator holds an outcome under processing, else 0. -/
def holdCount (s : CState) : Nat :=
  match s.holding with
  | some _ => 1
  | none => 0

/-- Inductive invariant: fetch tasks plus queued plus held outcomes never
exceed `F`, and running downloads plus free permits always sum to `D`. -/
def CInv (F D : Nat) (s : CState) : Prop :=
  s.fetching + s.channel.length + holdCount s ≤ F ∧
  s.downloading + s.freePermits = D

/-! ## Concrete sample inputs used to instantiate the theorems -/

/-- `Url::parse` always succeeds. -/
def parseAlwaysOk : RStr → Bool := fun _ => true

/-- `Url::parse` always fails. -/
def parseNeverOk : RStr → Bool := fun _ => false

/-- A metadata document the classifier accepts: one file descriptor with an
`ipfs://` source. -/
def goodMeta : AssetDetails :=
  ⟨"a1".data,
   some (Json.obj
     [("files", Json.arr [Json.obj [("src", Json.str "ipfs://QmX".data)]])])⟩

/-- A metadata document whose on-chain metadata carries an EMPTY `files`
array. -/
def emptyFilesMeta : AssetDetails :=
  ⟨"a1".data, some (Json.obj [("files", Json.arr [])])⟩

/-- Every fetch returns `goodMeta`. -/
def oracleGood : RStr → Option AssetDetails := fun _ => some goodMeta

/-- Every fetch fails. -/
def oracleFail : RStr → Option AssetDetails := fun _ => none

/-! ## Theorems -/

/-- `strStartsWith (p ++ t) p` always holds. -/
theorem strStartsWith_append (p t : RStr) : strStartsWith (p ++ t) p = true := by
  induction p with
  | nil => simp [strStartsWith]
  | cons c cs ih => simp [strStartsWith, ih]

/-- C5: the URI resolver is a pure function mapping `"ipfs://" ++ cid` to
`Ok (gateway ++ cid)` with gateway `"https://ipfs.io/ipfs/"`, and any input
without the `"ipfs://"` marker to an error value. -/
theorem c5_ipfs_to_http_spec :
    (∀ cid : RStr,
      ipfs_to_http ("ipfs://".data ++ cid) = Except.ok (IPFS_GATEWAY ++ cid)) ∧
    (∀ s : RStr, strStartsWith s "ipfs://".data = false →
      ∃ msg, ipfs_to_http s = Except.error msg) := by
  constructor
  · intro cid
    have h1 : strStartsWith ("ipfs://".data ++ cid) "ipfs://".data = true :=
      strStartsWith_append _ _
    have h7 : ("ipfs://".data).length = 7 := rfl
    simp only [ipfs_to_http, h1, if_true]
    rw [← h7, List.drop_left]
  · intro s hs
    simp [ipfs_to_http, hs]

/-- C5 witness: the resolver at a concrete CID and a concrete non-IPFS
input. -/
theorem c5_witness :
    ipfs_to_http ("ipfs://".data ++ "QmX".data) =
      Except.ok (IPFS_GATEWAY ++ "QmX".data) ∧
    ∃ msg, ipfs_to_http "https://x".data = Except.error msg :=
  ⟨c5_ipfs_to_http_spec.1 "QmX".data,
   c5_ipfs_to_http_spec.2 "https://x".data (by decide)⟩

/-- C1: at the EMPTY input list no fetch task is ever spawned and the
orchestrator's own channel sender is never dropped, so `rx.recv().await`
blocks forever — the receive loop does not terminate and no ResultSet is
returned, contradicting the claim for the empty list. -/
theorem c1_empty_input_hangs (oracle : RStr → Option AssetDetails)
    (parseOk : RStr → Bool) :
    fetch_assets_metadata oracle parseOk [] = RunResult.hang [] := rfl

/-- C2: a metadata document whose `files` array is EMPTY makes the loop body
evaluate `files[0]`, which panics (index out of bounds) instead of yielding a
normal invalid outcome. -/
theorem c2_empty_files_panics (parseOk : RStr → Bool) :
    processResult parseOk (some emptyFilesMeta) = StepOutcome.panic := rfl

/-- C3: consuming one `FetchOutcome`:
  - accepted outcome ⇒ the asset is appended to the ResultSet, a download job
    is launched, the pending stack is untouched and no replacement id is
    spawned (the ghost `spawned` list does not grow — the fetch window
    shrinks by one);
  - fetch failure is classified exactly like any rejection (`invalid`);
  - failed/rejected outcome with a non-empty stack ⇒ exactly the top id is
    popped, `remaining_tasks` is re-incremented after its decrement, a fetch
    task is spawned for the popped id, and ResultSet and download jobs are
    untouched; the dropped id is not retried. -/
theorem c3_loop_body (oracle : RStr → Option AssetDetails)
    (parseOk : RStr → Bool) (st : LoopSt) (a : RStr) (rest : List RStr)
    (hin : st.inflight = a :: rest) :
    (∀ asset job, processResult parseOk (oracle a) = .valid asset job →
      (st.remaining - 1 = 0 →
        loopStep oracle parseOk st =
          .done (.ok (st.results ++ [asset]) (st.jobs ++ [job]) st.spawned)) ∧
      (st.remaining - 1 ≠ 0 →
        loopStep oracle parseOk st =
          .cont ⟨rest, st.pending, st.remaining - 1,
                 st.results ++ [asset], st.jobs ++ [job], st.spawned⟩)) ∧
    (processResult parseOk none = .invalid) ∧
    (∀ ps p, processResult parseOk (oracle a) = .invalid →
      st.pending = ps ++ [p] →
      loopStep oracle parseOk st =
        .cont ⟨rest ++ [p], ps, (st.remaining - 1) + 1,
               st.results, st.jobs, st.spawned ++ [p]⟩) := by
  refine ⟨?_, rfl, ?_⟩
  · intro asset job hv
    constructor
    · intro hz
      simp [loopStep, hin, hv, hz]
    · intro hnz
      simp [loopStep, hin, hv, hnz]
  · intro ps p hi hp
    simp [loopStep, hin, hi, hp]

/-- C3 witness: one accepted outcome at a concrete state (asset appended, job
launched, no pop), and one rejected outcome at a concrete state (exactly the
top pending id popped and spawned). -/
theorem c3_witness :
    loopStep oracleGood parseAlwaysOk
        ⟨["a1".data], ["b1".data], 2, [], [], ["a1".data]⟩ =
      .cont ⟨[], ["b1".data], 1,
             [⟨"a1".data, "ipfs://QmX".data⟩],
             [⟨IPFS_GATEWAY ++ "QmX".data, "a1.png".data⟩], ["a1".data]⟩ ∧
    loopStep oracleFail parseAlwaysOk
        ⟨["a1".data], ["b1".data], 2, [], [], ["a1".data]⟩ =
      .cont ⟨["b1".data], [], 2, [], [], ["a1".data, "b1".data]⟩ := by
  constructor
  · exact ((c3_loop_body oracleGood parseAlwaysOk
      ⟨["a1".data], ["b1".data], 2, [], [], ["a1".data]⟩ "a1".data []
      rfl).1 ⟨"a1".data, "ipfs://QmX".data⟩
      ⟨IPFS_GATEWAY ++ "QmX".data, "a1.png".data⟩ (by decide)).2 (by decide)
  · exact (c3_loop_body oracleFail parseAlwaysOk
      ⟨["a1".data], ["b1".data], 2, [], [], ["a1".data]⟩ "a1".data []
      rfl).2.2 [] "b1".data (by decide) rfl

/-- C10: when the classifier has accepted an outcome but `Url::parse` fails,
the `?` aborts `fetch_assets_metadata` at once: the loop returns the error
(all accumulated results are discarded), and on an errored run the caller
gets `Err`, `future::join_all` is never reached, and no download task is
awaited. -/
theorem c10_parse_failure_aborts (oracle : RStr → Option AssetDetails)
    (parseOk : RStr → Bool) (dlOk : DownloadJob → Bool) (fuel : Nat)
    (st : LoopSt) (a : RStr) (rest : List RStr)
    (hin : st.inflight = a :: rest)
    (habort : processResult parseOk (oracle a) = .abort) :
    runLoopAux oracle parseOk (fuel + 1) st = .err st.spawned ∧
    (∀ assets sp,
      fetch_assets_metadata oracle parseOk assets = .err sp →
      (runPipeline oracle parseOk dlOk assets).out = Except.error () ∧
      (runPipeline oracle parseOk dlOk assets).joinRan = false ∧
      (runPipeline oracle parseOk dlOk assets).downloadsRun = []) := by
  constructor
  · simp [runLoopAux, loopStep, hin, habort]
  · intro assets sp h
    simp [runPipeline, h]

/-- C10 witness: at a state holding one already-validated asset, a
parse-failing accepted outcome ends the run with `err`; at the whole-pipeline
level the caller sees `Err` and `join_all` never runs. -/
theorem c10_witness :
    runLoopAux oracleGood parseNeverOk 1
        ⟨["a1".data], [], 1, [⟨"z".data, "z".data⟩], [], ["a1".data]⟩ =
      .err ["a1".data] ∧
    (runPipeline oracleGood parseNeverOk (fun _ => true) ["a1".data]).out =
      Except.error () ∧
    (runPipeline oracleGood parseNeverOk (fun _ => true) ["a1".data]).joinRan =
      false := by
  have h := c10_parse_failure_aborts oracleGood parseNeverOk (fun _ => true) 0
    ⟨["a1".data], [], 1, [⟨"z".data, "z".data⟩], [], ["a1".data]⟩
    "a1".data [] rfl (by decide)
  exact ⟨h.1, (h.2 ["a1".data] ["a1".data] (by decide)).1,
    (h.2 ["a1".data] ["a1".data] (by decide)).2.1⟩

/-- C6: a download failure is isolated.  On a normally drained run the caller
receives exactly the ResultSet assembled at classification time; every
spawned download job is still awaited (a failing task only logs and
resolves), and the ResultSet does not depend on which downloads succeed —
assets are appended before their download runs. -/
theorem c6_download_failure_isolated (oracle : RStr → Option AssetDetails)
    (parseOk : RStr → Bool) (dlOk1 dlOk2 : DownloadJob → Bool)
    (assets : List RStr) (results : List Asset) (jobs : List DownloadJob)
    (sp : List RStr)
    (h : fetch_assets_metadata oracle parseOk assets = .ok results jobs sp) :
    (runPipeline oracle parseOk dlOk1 assets).out = Except.ok results ∧
    (runPipeline oracle parseOk dlOk1 assets).downloadsRun.length =
      jobs.length ∧
    (runPipeline oracle parseOk dlOk1 assets).out =
      (runPipeline oracle parseOk dlOk2 assets).out := by
  simp [runPipeline, h]

/-- C6 witness: a run with one validated asset; with every download failing
the asset still appears in the ResultSet, the job is still awaited, and the
output equals the all-downloads-succeed output. -/
theorem c6_witness :
    (runPipeline oracleGood parseAlwaysOk (fun _ => false) ["a1".data]).out =
      Except.ok [⟨"a1".data, "ipfs://QmX".data⟩] ∧
    (runPipeline oracleGood parseAlwaysOk (fun _ => false)
        ["a1".data]).downloadsRun.length =
      [(⟨IPFS_GATEWAY ++ "QmX".data, "a1.png".data⟩ : DownloadJob)].length ∧
    (runPipeline oracleGood parseAlwaysOk (fun _ => false) ["a1".data]).out =
      (runPipeline oracleGood parseAlwaysOk (fun _ => true) ["a1".data]).out :=
  c6_download_failure_isolated oracleGood parseAlwaysOk (fun _ => false)
    (fun _ => true) ["a1".data] [⟨"a1".data, "ipfs://QmX".data⟩]
    [⟨IPFS_GATEWAY ++ "QmX".data, "a1.png".data⟩] ["a1".data] (by decide)

/-- If a list has a last element, re-appending it to `dropLast` restores the
list (Vec `pop` splits the Vec as `dropLast ++ [last]`). -/
theorem dropLast_append_getLast (l : List RStr) (p : RStr)
    (h : l.getLast? = some p) : l.dropLast ++ [p] = l := by
  induction l with
  | nil => simp at h
  | cons a rest ih =>
    cases rest with
    | nil => simp_all [List.getLast?]
    | cons b rest' =>
      have h' : (b :: rest').getLast? = some p := by
        rwa [List.getLast?_cons_cons] at h
      simpa [List.dropLast_cons₂] using ih h'

/-- Every id ever handed to a fetch task during a run of the receive loop is
either already recorded in the entry state or comes from popping the pending
stack: the ids popped form a sublist of the stack in pop (reversed) order. -/
theorem runLoopAux_spawned (oracle : RStr → Option AssetDetails)
    (parseOk : RStr → Bool) :
    ∀ (fuel : Nat) (st : LoopSt), ∃ popped : List RStr,
      (runLoopAux oracle parseOk fuel st).spawnedIds = st.spawned ++ popped ∧
      popped.Sublist st.pending.reverse := by
  intro fuel
  induction fuel with
  | zero =>
    intro st
    exact ⟨[], by simp [runLoopAux, RunResult.spawnedIds], List.nil_sublist _⟩
  | succ f ih =>
    intro st
    cases hin : st.inflight with
    | nil =>
      exact ⟨[], by simp [runLoopAux, loopStep, hin, RunResult.spawnedIds],
        List.nil_sublist _⟩
    | cons a rest =>
      cases hp : processResult parseOk (oracle a) with
      | panic =>
        exact ⟨[], by simp [runLoopAux, loopStep, hin, hp, RunResult.spawnedIds],
          List.nil_sublist _⟩
      | abort =>
        exact ⟨[], by simp [runLoopAux, loopStep, hin, hp, RunResult.spawnedIds],
          List.nil_sublist _⟩
      | valid asset job =>
        by_cases hz : st.remaining - 1 = 0
        · exact ⟨[],
            by simp [runLoopAux, loopStep, hin, hp, hz, RunResult.spawnedIds],
            List.nil_sublist _⟩
        · obtain ⟨popped, h1, h2⟩ := ih
            ⟨rest, st.pending, st.remaining - 1, st.results ++ [asset],
             st.jobs ++ [job], st.spawned⟩
          refine ⟨popped, ?_, h2⟩
          simpa [runLoopAux, loopStep, hin, hp, hz] using h1
      | invalid =>
        cases hg : st.pending.getLast? with
        | none =>
          by_cases hz : st.remaining - 1 = 0
          · exact ⟨[],
              by simp [runLoopAux, loopStep, hin, hp, hg, hz,
                RunResult.spawnedIds],
              List.nil_sublist _⟩
          · obtain ⟨popped, h1, h2⟩ := ih
              ⟨rest, st.pending, st.remaining - 1, st.results, st.jobs,
               st.spawned⟩
            refine ⟨popped, ?_, h2⟩
            simpa [runLoopAux, loopStep, hin, hp, hg, hz] using h1
        | some p =>
          have hsplit : st.pending.dropLast ++ [p] = st.pending :=
            dropLast_append_getLast _ _ hg
          obtain ⟨popped, h1, h2⟩ := ih
            ⟨rest ++ [p], st.pending.dropLast, (st.remaining - 1) + 1,
             st.results, st.jobs, st.spawned ++ [p]⟩
          refine ⟨p :: popped, ?_, ?_⟩
          · have hstep :
                runLoopAux oracle parseOk (f + 1) st =
                runLoopAux oracle parseOk f
                  ⟨rest ++ [p], st.pending.dropLast, (st.remaining - 1) + 1,
                   st.results, st.jobs, st.spawned ++ [p]⟩ := by
              simp [runLoopAux, loopStep, hin, hp, hg]
            rw [hstep, h1, List.append_assoc]
            rfl
          · have hrev : st.pending.reverse = p :: st.pending.dropLast.reverse := by
              conv_lhs => rw [← hsplit]
              simp
            rw [hrev]
            exact h2.cons₂ p

/-- C4: over a whole run, the number of fetch tasks launched never exceeds
the initial asset-list length, and for distinct input ids every id is handed
to a fetch task (popped) at most once — dropped ids are never re-pushed. -/
theorem c4_each_id_fetched_once (oracle : RStr → Option AssetDetails)
    (parseOk : RStr → Bool) (assets : List RStr) :
    ((fetch_assets_metadata oracle parseOk assets).spawnedIds).length ≤
      assets.length ∧
    (assets.Nodup →
      ((fetch_assets_metadata oracle parseOk assets).spawnedIds).Nodup) := by
  have hk : ∀ k : Nat,
      ((assets.reverse.take k).reverse ++ assets.reverse.drop k).length =
        assets.length := by
    intro k
    simp [List.length_take, List.length_drop]
    omega
  obtain ⟨popped, h1, h2⟩ := runLoopAux_spawned oracle parseOk
    ((assets.reverse.drop
        (assets.reverse.length - NUM_CONCURRENT_FETCHES)).length +
      (assets.reverse.take
        (assets.reverse.length - NUM_CONCURRENT_FETCHES)).length)
    ⟨assets.reverse.drop (assets.reverse.length - NUM_CONCURRENT_FETCHES),
     assets.reverse.take (assets.reverse.length - NUM_CONCURRENT_FETCHES),
     (assets.reverse.drop
        (assets.reverse.length - NUM_CONCURRENT_FETCHES)).length,
     [], [],
     assets.reverse.drop (assets.reverse.length - NUM_CONCURRENT_FETCHES)⟩
  have hrun : fetch_assets_metadata oracle parseOk assets =
      runLoopAux oracle parseOk
        ((assets.reverse.drop
            (assets.reverse.length - NUM_CONCURRENT_FETCHES)).length +
          (assets.reverse.take
            (assets.reverse.length - NUM_CONCURRENT_FETCHES)).length)
        ⟨assets.reverse.drop (assets.reverse.length - NUM_CONCURRENT_FETCHES),
         assets.reverse.take (assets.reverse.length - NUM_CONCURRENT_FETCHES),
         (assets.reverse.drop
            (assets.reverse.length - NUM_CONCURRENT_FETCHES)).length,
         [], [],
         assets.reverse.drop
           (assets.reverse.length - NUM_CONCURRENT_FETCHES)⟩ := rfl
  rw [hrun, h1]
  constructor
  · have hp : popped.length ≤
        (assets.reverse.take
          (assets.reverse.length - NUM_CONCURRENT_FETCHES)).length := by
      simpa using h2.length_le
    simp only [List.length_append]
    simp [List.length_take, List.length_drop] at hp ⊢
    omega
  · intro hnd
    have hrnd : assets.reverse.Nodup := List.nodup_reverse.mpr hnd
    have hsplit :
        assets.reverse.take (assets.reverse.length - NUM_CONCURRENT_FETCHES) ++
          assets.reverse.drop
            (assets.reverse.length - NUM_CONCURRENT_FETCHES) =
          assets.reverse := List.take_append_drop _ _
    rw [← hsplit] at hrnd
    rw [List.nodup_append] at hrnd
    obtain ⟨htake, hdrop, hdisj⟩ := hrnd
    rw [List.nodup_append]
    refine ⟨hdrop, ?_, ?_⟩
    · exact h2.nodup (List.nodup_reverse.mpr htake)
    · intro x hx hx'
      have hx'' : x ∈ assets.reverse.take
          (assets.reverse.length - NUM_CONCURRENT_FETCHES) := by
        have := h2.subset hx'
        simpa using this
      exact hdisj hx'' hx

/-- C4 witness: two distinct ids whose fetches all fail — both are fetched
exactly once, two tasks in total. -/
theorem c4_witness :
    ((fetch_assets_metadata oracleFail parseAlwaysOk
        ["a1".data, "b1".data]).spawnedIds).length ≤
      (["a1".data, "b1".data] : List RStr).length ∧
    ((fetch_assets_metadata oracleFail parseAlwaysOk
        ["a1".data, "b1".data]).spawnedIds).Nodup :=
  ⟨(c4_each_id_fetched_once oracleFail parseAlwaysOk
      ["a1".data, "b1".data]).1,
   (c4_each_id_fetched_once oracleFail parseAlwaysOk
      ["a1".data, "b1".data]).2 (by decide)⟩


/-- Looking up the path just set. -/
theorem lookupFile_setFile_self (files : List (String × Chunk)) (p : String)
    (c : Chunk) : lookupFile (setFile files p c) p = some c := by
  simp [setFile, lookupFile]

/-- Removing one path leaves lookups of a different path unchanged. -/
theorem lookupFile_removeFile_ne (p q : String) (h : q ≠ p) :
    ∀ files : List (String × Chunk),
      lookupFile (removeFile files p) q = lookupFile files q := by
  intro files
  induction files with
  | nil => rfl
  | cons kv rest ih =>
    obtain ⟨k, v⟩ := kv
    by_cases hk : k = p
    · subst hk
      simp [removeFile, lookupFile, ih, Ne.symm h]
    · by_cases hq : k = q
      · subst hq
        simp [removeFile, lookupFile, hk, ih]
      · simp [removeFile, lookupFile, hk, hq, ih]

/-- Setting one path leaves lookups of a different path unchanged. -/
theorem lookupFile_setFile_ne (files : List (String × Chunk)) (p q : String)
    (c : Chunk) (h : q ≠ p) :
    lookupFile (setFile files p c) q = lookupFile files q := by
  simp [setFile, lookupFile, Ne.symm h]
  exact lookupFile_removeFile_ne p q h files

/-- C7: when the destination path already exists, `download_and_save`
succeeds as a no-op: `Ok` result, no HTTP request, zero bytes transferred,
and the file map — in particular the pre-existing file's contents — is
byte-for-byte unchanged. -/
theorem c7_existing_file_skips (output_dir tmp_name filename : String)
    (fs : FSState) (body : List Chunk)
    (h : fs.fileExists (output_dir ++ "/" ++ filename) = true) :
    (download_and_save output_dir tmp_name fs filename body).out =
      Except.ok () ∧
    (download_and_save output_dir tmp_name fs filename
        body).bytesTransferred = 0 ∧
    (download_and_save output_dir tmp_name fs filename body).httpCalled =
      false ∧
    (download_and_save output_dir tmp_name fs filename body).fs.files =
      fs.files := by
  have hfiles :
      (if output_dir ∈ fs.dirs then fs
       else applyOp fs (.createDir output_dir)).files = fs.files := by
    split <;> rfl
  have hex :
      (if output_dir ∈ fs.dirs then fs
       else applyOp fs (.createDir output_dir)).fileExists
        (output_dir ++ "/" ++ filename) = true := by
    rw [FSState.fileExists, hfiles]
    exact h
  simp [download_and_save, hex, hfiles]

/-- C7 witness: a concrete filesystem already holding `out/a.png`. -/
theorem c7_witness :
    (download_and_save "out" ".tmp1"
        ⟨["out"], [("out/a.png", [7, 8])]⟩ "a.png" [[1, 2, 3]]).out =
      Except.ok () ∧
    (download_and_save "out" ".tmp1"
        ⟨["out"], [("out/a.png", [7, 8])]⟩ "a.png"
        [[1, 2, 3]]).bytesTransferred = 0 ∧
    (download_and_save "out" ".tmp1"
        ⟨["out"], [("out/a.png", [7, 8])]⟩ "a.png" [[1, 2, 3]]).httpCalled =
      false ∧
    (download_and_save "out" ".tmp1"
        ⟨["out"], [("out/a.png", [7, 8])]⟩ "a.png" [[1, 2, 3]]).fs.files =
      [("out/a.png", [7, 8])] :=
  c7_existing_file_skips "out" ".tmp1" "a.png"
    ⟨["out"], [("out/a.png", [7, 8])]⟩ [[1, 2, 3]] (by decide)

/-- Operations that only create or write the temporary file leave every other
path's contents (and existence) unchanged. -/
theorem foldl_tmp_ops_other_path (tmpPath outPath : String)
    (hne : tmpPath ≠ outPath) :
    ∀ (l : List FsOp) (fs : FSState),
      (∀ op ∈ l, op = FsOp.createTemp tmpPath ∨
        ∃ c, op = FsOp.writeChunk tmpPath c) →
      lookupFile ((l.foldl applyOp fs).files) outPath =
        lookupFile fs.files outPath := by
  intro l
  induction l with
  | nil => intro fs _; rfl
  | cons op rest ih =>
    intro fs hops
    have hop := hops op (List.mem_cons_self _ _)
    have hrest := fun o ho => hops o (List.mem_cons_of_mem _ ho)
    rw [List.foldl_cons, ih _ hrest]
    rcases hop with h1 | ⟨c, h2⟩
    · subst h1
      exact lookupFile_setFile_ne _ _ _ _ (Ne.symm hne)
    · subst h2
      exact lookupFile_setFile_ne _ _ _ _ (Ne.symm hne)

/-- Writing the body chunk by chunk into the temporary file accumulates
exactly the concatenation of the chunks. -/
theorem foldl_writes_accumulate (tmpPath : String) :
    ∀ (chunks : List Chunk) (fs : FSState) (acc : Chunk),
      lookupFile fs.files tmpPath = some acc →
      lookupFile
        (((chunks.map (FsOp.writeChunk tmpPath)).foldl applyOp fs).files)
        tmpPath = some (acc ++ chunks.flatten) := by
  intro chunks
  induction chunks with
  | nil =>
    intro fs acc h
    simpa using h
  | cons c cs ih =>
    intro fs acc h
    rw [List.map_cons, List.foldl_cons]
    have h' : lookupFile
        ((applyOp fs (FsOp.writeChunk tmpPath c)).files) tmpPath =
        some (acc ++ c) := by
      simp [applyOp, h, lookupFile_setFile_self]
    rw [ih _ _ h']
    simp

/-- C8: the non-skip path of `download_and_save` creates the temporary file
inside the destination directory, streams the body into it chunk by chunk,
and renames it to the final filename as the very last operation; after every
strict prefix of the operation trace the final filename still does not exist
(a crash mid-transfer leaves at most the orphaned temporary file), and after
the full trace it holds exactly the whole body. -/
theorem c8_atomic_rename (output_dir tmp_name filename : String)
    (body : List Chunk) (fs : FSState)
    (hne : output_dir ++ "/" ++ tmp_name ≠ output_dir ++ "/" ++ filename)
    (habsent :
      lookupFile fs.files (output_dir ++ "/" ++ filename) = none) :
    (downloadOps output_dir tmp_name filename body).getLast? =
      some (FsOp.renameFile (output_dir ++ "/" ++ tmp_name)
        (output_dir ++ "/" ++ filename)) ∧
    (∀ k, k < (downloadOps output_dir tmp_name filename body).length →
      lookupFile
        ((((downloadOps output_dir tmp_name filename body).take k).foldl
            applyOp fs).files)
        (output_dir ++ "/" ++ filename) = none) ∧
    lookupFile
      (((downloadOps output_dir tmp_name filename body).foldl applyOp
          fs).files)
      (output_dir ++ "/" ++ filename) = some body.flatten := by
  have hops : downloadOps output_dir tmp_name filename body =
      (FsOp.createTemp (output_dir ++ "/" ++ tmp_name) ::
        body.map (FsOp.writeChunk (output_dir ++ "/" ++ tmp_name))) ++
      [FsOp.renameFile (output_dir ++ "/" ++ tmp_name)
        (output_dir ++ "/" ++ filename)] := by
    simp [downloadOps]
  have htouch : ∀ op ∈ FsOp.createTemp (output_dir ++ "/" ++ tmp_name) ::
      body.map (FsOp.writeChunk (output_dir ++ "/" ++ tmp_name)),
      op = FsOp.createTemp (output_dir ++ "/" ++ tmp_name) ∨
        ∃ c, op = FsOp.writeChunk (output_dir ++ "/" ++ tmp_name) c := by
    intro op hop
    rcases List.mem_cons.mp hop with h | h
    · exact Or.inl h
    · obtain ⟨c, _, hc⟩ := List.mem_map.mp h
      exact Or.inr ⟨c, hc.symm⟩
  refine ⟨?_, ?_, ?_⟩
  · rw [hops]
    exact List.getLast?_concat _
  · intro k hk
    have hlen : (downloadOps output_dir tmp_name filename body).length =
        body.length + 2 := by
      simp [downloadOps]
    have hk' : k ≤ (FsOp.createTemp (output_dir ++ "/" ++ tmp_name) ::
        body.map (FsOp.writeChunk (output_dir ++ "/" ++ tmp_name))).length := by
      simp only [List.length_cons, List.length_map]
      omega
    rw [hops, List.take_append_of_le_length hk']
    have hsub : ∀ op ∈ (FsOp.createTemp (output_dir ++ "/" ++ tmp_name) ::
        body.map (FsOp.writeChunk (output_dir ++ "/" ++ tmp_name))).take k,
        op = FsOp.createTemp (output_dir ++ "/" ++ tmp_name) ∨
          ∃ c, op = FsOp.writeChunk (output_dir ++ "/" ++ tmp_name) c :=
      fun op hop => htouch op (List.take_subset _ _ hop)
    rw [foldl_tmp_ops_other_path _ _ hne _ fs hsub]
    exact habsent
  · rw [hops, List.foldl_append]
    have h0 : lookupFile
        ((applyOp fs (FsOp.createTemp (output_dir ++ "/" ++ tmp_name))).files)
        (output_dir ++ "/" ++ tmp_name) = some [] :=
      lookupFile_setFile_self _ _ _
    have h1 := foldl_writes_accumulate (output_dir ++ "/" ++ tmp_name) body
      (applyOp fs (FsOp.createTemp (output_dir ++ "/" ++ tmp_name))) [] h0
    rw [List.foldl_cons]
    simp only [List.nil_append, applyOp] at h1
    simp [applyOp, h1, lookupFile_setFile_self]

/-- C8 witness: a concrete two-chunk download on an empty filesystem — rename
is the last operation, after the first two operations the final path still
does not exist, and the full trace leaves the whole body at the final
path. -/
theorem c8_witness :
    (downloadOps "out" ".tmp1" "a.png" [[1], [2]]).getLast? =
      some (FsOp.renameFile ("out" ++ "/" ++ ".tmp1")
        ("out" ++ "/" ++ "a.png")) ∧
    lookupFile
      ((((downloadOps "out" ".tmp1" "a.png" [[1], [2]]).take 2).foldl
          applyOp ⟨[], []⟩).files)
      ("out" ++ "/" ++ "a.png") = none ∧
    lookupFile
      (((downloadOps "out" ".tmp1" "a.png" [[1], [2]]).foldl applyOp
          ⟨[], []⟩).files)
      ("out" ++ "/" ++ "a.png") =
      some ([[1], [2]] : List Chunk).flatten := by
  have h := c8_atomic_rename "out" ".tmp1" "a.png" [[1], [2]] ⟨[], []⟩
    (by decide) rfl
  exact ⟨h.1, h.2.1 2 (by decide), h.2.2⟩

/-- The invariant holds in the initial state. -/
theorem cinv_init (F D n : Nat) : CInv F D (initCState F D n) := by
  constructor
  · simp [initCState, holdCount]
  · simp [initCState]

/-- The invariant is preserved by every scheduler step. -/
theorem cinv_step (F D : Nat) (s t : CState) (h : CInv F D s)
    (hs : CStep s t) : CInv F D t := by
  obtain ⟨h1, h2⟩ := h
  cases hs with
  | fetchDone o hf =>
    refine ⟨?_, h2⟩
    show s.fetching - 1 + (s.channel ++ [o]).length + holdCount s ≤ F
    simp only [List.length_append, List.length_cons, List.length_nil]
    omega
  | recv o ch hh hc =>
    refine ⟨?_, h2⟩
    show s.fetching + ch.length + 1 ≤ F
    have hlen : s.channel.length = ch.length + 1 := by rw [hc]; rfl
    have hhold : holdCount s = 0 := by simp [holdCount, hh]
    rw [hhold, hlen] at h1
    omega
  | procValid hh hp =>
    have hhold : holdCount s = 1 := by simp [holdCount, hh]
    rw [hhold] at h1
    constructor
    · show s.fetching + s.channel.length + 0 ≤ F
      omega
    · show s.downloading + 1 + (s.freePermits - 1) = D
      omega
  | procInvalidPop hh hp =>
    have hhold : holdCount s = 1 := by simp [holdCount, hh]
    rw [hhold] at h1
    refine ⟨?_, h2⟩
    show s.fetching + 1 + s.channel.length + 0 ≤ F
    omega
  | procInvalidNone hh hp =>
    have hhold : holdCount s = 1 := by simp [holdCount, hh]
    rw [hhold] at h1
    refine ⟨?_, h2⟩
    show s.fetching + s.channel.length + 0 ≤ F
    omega
  | downloadDone hd =>
    constructor
    · show s.fetching + s.channel.length + holdCount s ≤ F
      exact h1
    · show s.downloading - 1 + (s.freePermits + 1) = D
      omega

/-- The invariant holds in every reachable state. -/
theorem cinv_reachable (F D n : Nat) (s : CState)
    (h : CReach (initCState F D n) s) : CInv F D s := by
  induction h with
  | refl => exact cinv_init F D n
  | tail hr hs ih => exact cinv_step F D _ _ ih hs

/-- C9: in every state reachable under any interleaving of the spawned
tasks, at most `F` metadata fetches and at most `D` downloads are in flight,
for every `F, D ≥ 1` and every input size `n`. -/
theorem c9_bounded_concurrency (F D n : Nat) (hF : 1 ≤ F) (hD : 1 ≤ D)
    (s : CState) (h : CReach (initCState F D n) s) :
    s.fetching ≤ F ∧ s.downloading ≤ D := by
  obtain ⟨h1, h2⟩ := cinv_reachable F D n s h
  exact ⟨by omega, by omega⟩

/-- C9 witness: the source's configuration `F = 1`, `D = 3` on a two-asset
input, at a concrete reachable state. -/
theorem c9_witness :
    (initCState 1 3 2).fetching ≤ 1 ∧ (initCState 1 3 2).downloading ≤ 3 :=
  c9_bounded_concurrency 1 3 2 (by decide) (by decide) _ CReach.refl
